import Mathlib

/-!
Verification of the ai-spec-forge workflow orchestrator core.

Shallow embedding of:
- the phase state machine (src state-machine module, `VALID_TRANSITIONS`,
  `canTransition`, `transition`),
- the retry policy (src/lib/utils/retry.ts),
- the bounded-concurrency runner (src/lib/utils/concurrency.ts,
  `runParallelWithErrors`),
- per-round feedback aggregation (feedback module, `aggregateFeedback`,
  `runFeedbackRound`),
- the orchestrator's feedback-round driver (src/lib/orchestrator/index.ts,
  `Orchestrator.runFeedbackRound`),
- clarification reply parsing (clarification module,
  `parseClarificationResponse`, `stripMarkdownCodeBlocks`).

Machine integers are modelled as `Nat`; real-valued delays and jitter as `ℚ`;
fallible code returns `Except`.  Wall-clock time inside the retry loop is
modelled as the accumulated sleep time (operation invocations themselves are
treated as instantaneous).  Timestamps are not modelled.
-/

namespace SpecForge

/-- Workflow phases, from `src/types/state.ts` (`SessionStatus`). -/
inductive SessionStatus where
  | idle
  | preflight
  | clarifying
  | snapshotting
  | drafting
  | reviewing
  | revising
  | completed
  | error
deriving DecidableEq, Repr, Inhabited

/-- The string value of a `SessionStatus` (the TS type is a string union). -/
def statusName : SessionStatus → String
  | .idle => "idle"
  | .preflight => "preflight"
  | .clarifying => "clarifying"
  | .snapshotting => "snapshotting"
  | .drafting => "drafting"
  | .reviewing => "reviewing"
  | .revising => "revising"
  | .completed => "completed"
  | .error => "error"

/-- The `from` field of a transition entry: a single state or an array of
states, as in the TS `Transition` interface. -/
inductive FromSpec where
  | one (s : SessionStatus)
  | many (ss : List SessionStatus)
deriving DecidableEq, Repr

/-- A legal-transition entry (`from`/`to` are called `src`/`dst` because
`from` is a Lean keyword). -/
structure Transition where
  src : FromSpec
  dst : SessionStatus
deriving DecidableEq, Repr

/-- The legal transition table, transcribed from `VALID_TRANSITIONS`. -/
def VALID_TRANSITIONS : List Transition := [
  -- Normal flow
  ⟨.one .idle, .preflight⟩,
  ⟨.one .preflight, .clarifying⟩,
  ⟨.one .clarifying, .snapshotting⟩,
  ⟨.one .snapshotting, .drafting⟩,
  ⟨.one .drafting, .reviewing⟩,
  ⟨.one .reviewing, .revising⟩,
  ⟨.one .revising, .reviewing⟩,
  ⟨.one .revising, .completed⟩,
  -- Resume transitions
  ⟨.one .idle, .clarifying⟩,
  ⟨.one .idle, .snapshotting⟩,
  ⟨.one .idle, .drafting⟩,
  ⟨.one .idle, .reviewing⟩,
  ⟨.one .idle, .revising⟩,
  -- Error transitions (the `from` array in the source lists exactly these)
  ⟨.many [.idle, .preflight, .clarifying, .snapshotting, .drafting, .reviewing, .revising], .error⟩,
  -- Recovery from error
  ⟨.one .error, .idle⟩,
  ⟨.one .error, .preflight⟩,
  ⟨.one .error, .clarifying⟩,
  ⟨.one .error, .snapshotting⟩,
  ⟨.one .error, .drafting⟩,
  ⟨.one .error, .reviewing⟩,
  ⟨.one .error, .revising⟩]

/-- `StateMachine.canTransition`: does some entry of `VALID_TRANSITIONS`
match the current state and the target? -/
def canTransition (state tgt : SessionStatus) : Bool :=
  VALID_TRANSITIONS.any fun t =>
    (match t.src with
     | .one f => decide (f = state)
     | .many fs => decide (state ∈ fs)) && decide (t.dst = tgt)

/-- The state machine: current state plus registered listeners.  Listeners
are modelled by abstract identifiers; a transition reports the sequence of
listener invocations it performs. -/
structure StateMachine where
  state : SessionStatus
  listeners : List Nat
deriving DecidableEq, Repr

/-- One invocation of a state-change listener with arguments `(from, to)`. -/
structure ListenerCall where
  listener : Nat
  src : SessionStatus
  dst : SessionStatus
deriving DecidableEq, Repr

/-- `StateMachine.transition`: throws on an illegal transition (leaving the
machine untouched and invoking no listener); otherwise updates the state and
invokes every registered listener once, in registration order, with
`(from, to)`. -/
def StateMachine.transition (m : StateMachine) (tgt : SessionStatus) :
    Except String (StateMachine × List ListenerCall) :=
  if canTransition m.state tgt then
    .ok ({ m with state := tgt }, m.listeners.map fun l => ⟨l, m.state, tgt⟩)
  else
    .error ("Invalid transition from " ++ statusName m.state ++ " to " ++ statusName tgt)

/-! ## Retry policy (src/lib/utils/retry.ts)

Errors are modelled by their message string (the classifiers only inspect
`error.message`).  `Math.random() * 1000` is modelled by an arbitrary jitter
value in `[0, 1000)` supplied per attempt; delays and elapsed time are `ℚ`.
The outcome of the wrapped operation at each 1-indexed attempt is given by an
oracle `results : Nat → Except String α`, and elapsed wall-clock time is the
accumulated sleep time. -/

/-- Lower-case an ASCII character; models `String.prototype.toLowerCase` on
the ASCII strings the retry classifiers receive. -/
def lowerChar (c : Char) : Char :=
  if 65 ≤ c.toNat ∧ c.toNat ≤ 90 then Char.ofNat (c.toNat + 32) else c

/-- Lower-case a string (ASCII). -/
def toLowerStr (s : String) : String := String.mk (s.data.map lowerChar)

/-- Does `needle` occur as a contiguous substring of the character list? -/
def containsSubAux (needle : List Char) : List Char → Bool
  | [] => needle.isEmpty
  | c :: t => needle.isPrefixOf (c :: t) || containsSubAux needle t

/-- `String.prototype.includes`. -/
def strIncludes (s sub : String) : Bool := containsSubAux sub.data s.data

/-- `isRateLimitError`: HTTP 429 / rate-limit detection on the lower-cased
message. -/
def isRateLimitError (message : String) : Bool :=
  let m := toLowerStr message
  strIncludes m "429" || strIncludes m "rate limit" || strIncludes m "too many requests"

/-- `isTransientError`: rate-limit or network-level failure. -/
def isTransientError (message : String) : Bool :=
  let m := toLowerStr message
  isRateLimitError message ||
    strIncludes m "network" ||
    strIncludes m "timeout" ||
    strIncludes m "econnreset" ||
    strIncludes m "econnrefused" ||
    strIncludes m "socket hang up" ||
    strIncludes m "503" ||
    strIncludes m "502" ||
    strIncludes m "504"

/-- Retry options with every field required (the TS `DEFAULT_OPTIONS` merge
is modelled by passing fully-populated options). -/
structure RetryOptions where
  maxRetries : Nat
  maxDuration : ℚ
  baseDelay : ℚ
  maxDelay : ℚ
deriving Repr, DecidableEq

/-- `DEFAULT_OPTIONS` from retry.ts. -/
def DEFAULT_OPTIONS : RetryOptions :=
  { maxRetries := 5, maxDuration := 5 * 60 * 1000, baseDelay := 1000, maxDelay := 60000 }

/-- The retry options used by `Orchestrator.runPreflight`
(`{ maxRetries: 3, maxDuration: 60000 }` merged over the defaults). -/
def PREFLIGHT_RETRY_OPTIONS : RetryOptions :=
  { maxRetries := 3, maxDuration := 60000, baseDelay := 1000, maxDelay := 60000 }

/-- `calculateDelay`: exponential backoff, capped, plus jitter.  The
`Math.random() * 1000` jitter is the `jitter` argument. -/
def calculateDelay (attempt : Nat) (isRateLimit : Bool) (options : RetryOptions)
    (jitter : ℚ) : ℚ :=
  let baseDelay := if isRateLimit then (10000 : ℚ) else options.baseDelay
  let exponentialDelay := baseDelay * 2 ^ (attempt - 1)
  let cappedDelay := min exponentialDelay options.maxDelay
  cappedDelay + jitter

/-- Result of `withRetry` together with the number of times the wrapped
operation was invoked. -/
structure RetryTrace (α : Type) where
  result : Except String α
  calls : Nat
deriving Repr

/-- The `withRetry` loop body, starting at attempt number `attempt` with
`elapsed` milliseconds already spent sleeping.  `shouldRetry` is the optional
custom transience predicate. -/
def withRetryGo {α : Type} (results : Nat → Except String α) (jitter : Nat → ℚ)
    (shouldRetry : Option (String → Bool)) (opts : RetryOptions)
    (attempt : Nat) (elapsed : ℚ) : RetryTrace α :=
  match results attempt with
  | .ok v => ⟨.ok v, attempt⟩
  | .error msg =>
    let retry := match shouldRetry with
      | some p => p msg
      | none => isTransientError msg
    if !retry then ⟨.error msg, attempt⟩
    else if _hstop : opts.maxRetries ≤ attempt then
      ⟨.error ("Max retries (" ++ toString opts.maxRetries ++ ") exceeded. Last error: " ++ msg),
        attempt⟩
    else if opts.maxDuration ≤ elapsed then
      ⟨.error ("Retry window (" ++ toString (opts.maxDuration / 1000) ++ "s) exceeded. Last error: "
        ++ msg), attempt⟩
    else
      let delay := calculateDelay attempt (isRateLimitError msg) opts (jitter attempt)
      if opts.maxDuration - elapsed < delay then
        ⟨.error ("Retry would exceed time limit. Last error: " ++ msg), attempt⟩
      else
        withRetryGo results jitter shouldRetry opts (attempt + 1) (elapsed + delay)
termination_by opts.maxRetries - attempt
decreasing_by simp_wf; omega

/-- `withRetry`: run the loop from attempt 1 with no time spent. -/
def withRetry {α : Type} (results : Nat → Except String α) (jitter : Nat → ℚ)
    (shouldRetry : Option (String → Bool)) (opts : RetryOptions) : RetryTrace α :=
  withRetryGo results jitter shouldRetry opts 1 0

/-- Concrete operation for witnesses: four rate-limit failures, then success. -/
def c5Results : Nat → Except String Nat :=
  fun n => if n ≤ 4 then .error "429 rate limit" else .ok 7

/-- Concrete operation for witnesses: always succeeds. -/
def okResults : Nat → Except String Nat := fun _ => .ok 3

/-- Zero jitter for witnesses. -/
def zeroJitter : Nat → ℚ := fun _ => 0

/-! ## Concurrency limiter (src/lib/utils/concurrency.ts, `runParallelWithErrors`)

`runParallelWithErrors(items, limit, fn)` starts `min(limit, N)` worker
chains (`runNext`); each chain claims the next unclaimed task index, awaits
the task, stores its tagged outcome at that index (a thrown error is caught
and stored, never propagated), and recurses until the indices run out.  It is
modelled as a transition system whose nondeterministic events are task
completions: a state records the next unclaimed index, the indices currently
being executed (one per live worker), and the outcomes stored so far.  Task
`i`'s outcome is a fixed oracle value, legitimate because the tasks are
independent of one another. -/

/-- Outcome of one task: `{success: true, result}` or
`{success: false, error}`. -/
inductive TaskResult (ρ : Type) where
  | success (result : ρ)
  | failure (error : String)
deriving Repr, DecidableEq

/-- A scheduler state of `runParallelWithErrors`. -/
structure RunState (ρ : Type) where
  nextIndex : Nat
  active : List Nat
  results : Nat → Option (TaskResult ρ)

/-- The state just after the start-up loop: `min K N` workers each claimed
one of the first indices; nothing is stored yet. -/
def initState {ρ : Type} (N K : Nat) : RunState ρ :=
  ⟨min K N, List.range (min K N), fun _ => none⟩

/-- One completion event: the worker running task `i` finishes, stores
`oracle i` at slot `i`, and claims the next index if one remains (otherwise
the worker chain ends). -/
inductive Step {ρ : Type} (oracle : Nat → TaskResult ρ) (N : Nat) :
    RunState ρ → RunState ρ → Prop where
  | finish (s : RunState ρ) (i : Nat) (hi : i ∈ s.active) :
      Step oracle N s
        ⟨if s.nextIndex < N then s.nextIndex + 1 else s.nextIndex,
         s.active.erase i ++ (if s.nextIndex < N then [s.nextIndex] else []),
         fun j => if j = i then some (oracle i) else s.results j⟩

/-- States reachable in a run of `N` tasks with limit `K`. -/
def ReachableRun {ρ : Type} (oracle : Nat → TaskResult ρ) (N K : Nat) (s : RunState ρ) : Prop :=
  Relation.ReflTransGen (Step oracle N) (initState N K) s

/-- Pending work: unclaimed indices plus running workers.  Every completion
event strictly decreases it, so every run terminates. -/
def runMeasure {ρ : Type} (N : Nat) (s : RunState ρ) : Nat :=
  (N - s.nextIndex) + s.active.length

/-- Scheduler invariant tying claimed indices, running workers and stored
outcomes together. -/
structure RunInv {ρ : Type} (oracle : Nat → TaskResult ρ) (N K : Nat) (s : RunState ρ) : Prop where
  next_le : s.nextIndex ≤ N
  active_lt : ∀ i ∈ s.active, i < s.nextIndex
  nodup : s.active.Nodup
  active_none : ∀ i ∈ s.active, s.results i = none
  done_some : ∀ j, j < s.nextIndex → j ∉ s.active → s.results j = some (oracle j)
  todo_none : ∀ j, s.nextIndex ≤ j → s.results j = none
  card_le : s.active.length ≤ min K N
  empty_done : s.active = [] → N ≤ s.nextIndex

/-- Task oracle for witnesses: task 1 fails, the others succeed. -/
def oracleW : Nat → TaskResult Nat :=
  fun i => if i = 1 then .failure "boom" else .success i

/-! ## Session state (src/types/state.ts) and the feedback module

JS `Record` objects are modelled as association lists in insertion order
(property writes update the existing entry in place or append).  File
contents and timestamps are not modelled; artifact paths are kept relative
to the session directory. -/

/-- `'pending' | 'complete' | 'error'`. -/
inductive ConsultantCallStatus where
  | pending
  | complete
  | error
deriving DecidableEq, Repr

/-- `ConsultantCallState`. -/
structure ConsultantCallState where
  status : ConsultantCallStatus
  path : Option String
  error : Option String
  duration : Option Nat
deriving DecidableEq, Repr

/-- `RoundState`. -/
structure RoundState where
  consultants : List (String × ConsultantCallState)
  feedbackBundlePath : Option String
  revisedSpecPath : Option String
deriving DecidableEq, Repr

/-- The `SessionState.error` record (timestamp not modelled). -/
structure SessionError where
  message : String
  step : String
  model : Option String
deriving DecidableEq, Repr

/-- `SessionState`. -/
structure SessionState where
  status : SessionStatus
  currentRound : Nat
  latestSpecVersion : Nat
  requirementsSnapshotPath : Option String
  clarificationTranscriptPath : Option String
  rounds : List (Nat × RoundState)
  error : Option SessionError
deriving DecidableEq, Repr

/-- Association-list read (JS property read). -/
def alistLookup {κ ν : Type} [DecidableEq κ] (xs : List (κ × ν)) (k : κ) : Option ν :=
  (xs.find? fun p => decide (p.1 = k)).map (·.2)

/-- Association-list write (JS property write: replace the entry in place,
otherwise append, preserving insertion order). -/
def alistSet {κ ν : Type} [DecidableEq κ] : List (κ × ν) → κ → ν → List (κ × ν)
  | [], k, v => [(k, v)]
  | p :: t, k, v => if p.1 = k then (k, v) :: t else p :: alistSet t k v

/-- `createInitialState`. -/
def createInitialState : SessionState :=
  ⟨.idle, 0, 0, none, none, [], none⟩

/-- `initializeRoundState`. -/
def initializeRoundState (consultantModels : List String) : RoundState :=
  ⟨consultantModels.map (fun model => (model, ⟨.pending, none, none, none⟩)), none, none⟩

/-- `getPendingConsultants` from src/types/state.ts: entries whose recorded
status is `pending` (in insertion order). -/
def getPendingConsultants (roundState : RoundState) : List String :=
  (roundState.consultants.filter fun p => decide (p.2.status = .pending)).map (·.1)

/-- `isRoundComplete`. -/
def isRoundComplete (roundState : RoundState) : Bool :=
  roundState.consultants.all fun p => decide (p.2.status = .complete)

/-- `hasRoundError`. -/
def hasRoundError (roundState : RoundState) : Bool :=
  roundState.consultants.any fun p => decide (p.2.status = .error)

/-- `getFeedbackRoundPath`, relative to the session directory. -/
def getFeedbackRoundPath (round : Nat) : String :=
  "feedback/round-" ++ toString round ++ ".md"

/-- `getSpecVersionPath`, relative to the session directory. -/
def getSpecVersionPath (version : Nat) : String :=
  "spec-v" ++ toString version ++ ".md"

/-- `getConsultantResponsePath` (model id sanitized for the filename). -/
def getConsultantResponsePath (round : Nat) (modelId : String) : String :=
  let safeModelId := String.mk (modelId.data.map fun c =>
    if c.isAlphanum || c = '-' then c else '_')
  "feedback/round-" ++ toString round ++ "-" ++ safeModelId ++ ".md"

/-- `'success' | 'error'` status of one consultant call outcome. -/
inductive FeedbackStatus where
  | success
  | error
deriving DecidableEq, Repr

/-- `ConsultantFeedback` from the feedback module. -/
structure ConsultantFeedback where
  modelId : String
  content : String
  duration : Nat
  status : FeedbackStatus
  error : Option String
deriving DecidableEq, Repr

/-- `(duration / 1000).toFixed(1)`: seconds with one decimal digit (the
float rounding is modelled as round-half-up on tenths). -/
def toFixed1 (ms : Nat) : String :=
  let tenths := (ms + 50) / 100
  toString (tenths / 10) ++ "." ++ toString (tenths % 10)

/-- `aggregateFeedback`: header, one section per successful consultant in
list order, then a failed-consultants note when any failed (a missing
`error` field prints as `undefined` in the template literal). -/
def aggregateFeedback (feedbacks : List ConsultantFeedback) (round : Nat) : String :=
  let successfulFeedbacks := feedbacks.filter fun f => decide (f.status = .success)
  if successfulFeedbacks.length = 0 then
    "No feedback available - all consultants failed."
  else
    let header :=
      "# Aggregated Feedback from Round " ++ toString round ++ "\n\n" ++
      "Total consultants: " ++ toString feedbacks.length ++ "\n" ++
      "Successful responses: " ++ toString successfulFeedbacks.length ++ "\n\n" ++
      "---\n\n"
    let body := String.join (successfulFeedbacks.map fun feedback =>
      "## Feedback from " ++ feedback.modelId ++ "\n" ++
      "*Response time: " ++ toFixed1 feedback.duration ++ "s*\n\n" ++
      feedback.content ++ "\n\n---\n\n")
    let failedFeedbacks := feedbacks.filter fun f => decide (f.status = .error)
    let failures :=
      if 0 < failedFeedbacks.length then
        "## Failed Consultants\n\n" ++
          String.join (failedFeedbacks.map fun feedback =>
            "- **" ++ feedback.modelId ++ "**: " ++ feedback.error.getD "undefined" ++ "\n") ++
          "\n"
      else ""
    header ++ body ++ failures

/-- One reviewer section of the aggregate bundle as the spec describes it:
labeled with the model id and the call duration, then the feedback text. -/
def aggregateSection (f : ConsultantFeedback) : String :=
  "## Feedback from " ++ f.modelId ++ "\n" ++
  "*Response time: " ++ toFixed1 f.duration ++ "s*\n\n" ++
  f.content ++ "\n\n---\n\n"

/-- The aggregate bundle header for an all-success round (every consultant
responded). -/
def aggregateHeader (feedbacks : List ConsultantFeedback) (round : Nat) : String :=
  "# Aggregated Feedback from Round " ++ toString round ++ "\n\n" ++
  "Total consultants: " ++ toString feedbacks.length ++ "\n" ++
  "Successful responses: " ++ toString feedbacks.length ++ "\n\n" ++
  "---\n\n"

/-- Rebuild of the `feedbacks` array from stored task outcomes
(`results.map` at the end of the feedback-module `runFeedbackRound`): a
successful slot is the feedback the task built; a failed slot becomes an
error feedback for `consultantModels[index]` with duration 0. -/
def feedbackFromResult (models : List String) (i : Nat)
    (r : TaskResult ConsultantFeedback) : ConsultantFeedback :=
  match r with
  | .success fb => fb
  | .failure e => ⟨models.getD i "", "", 0, .error, some e⟩

/-- The feedback list read off a scheduler state (slots still `none` cannot
occur once all tasks resolved). -/
def feedbacksOfState (models : List String) (s : RunState ConsultantFeedback) :
    List ConsultantFeedback :=
  (List.range models.length).map fun i =>
    (s.results i).elim ⟨"", "", 0, .error, none⟩ (feedbackFromResult models i)

/-- `FeedbackRoundResult`. -/
structure FeedbackRoundResult where
  round : Nat
  feedbacks : List ConsultantFeedback
  hasErrors : Bool
  aggregatedFeedback : String
deriving Repr

/-- The feedback-module `runFeedbackRound`, given each model's post-retry
call outcome (content and wall-clock duration on success, the error message
otherwise).  Per `runParallelWithErrors_contract` the runner's result array
is in input order, so it is folded into a per-model outcome oracle here. -/
def runFeedbackRoundFB (consultantModels : List String)
    (outcome : String → TaskResult (String × Nat)) (round : Nat) : FeedbackRoundResult :=
  let feedbacks := consultantModels.map fun model =>
    match outcome model with
    | .success (content, duration) =>
        (⟨model, content, duration, .success, none⟩ : ConsultantFeedback)
    | .failure e => (⟨model, "", 0, .error, some e⟩ : ConsultantFeedback)
  let hasErrors := feedbacks.any fun f => decide (f.status = .error)
  ⟨round, feedbacks, hasErrors, aggregateFeedback feedbacks round⟩

/-- The models of the failing outcomes, in input order. -/
def failedModelIds (pending : List String)
    (outcome : String → TaskResult (String × Nat)) : List String :=
  pending.filter fun m => match outcome m with
    | .failure _ => true
    | .success _ => false

/-- `Array.prototype.join(', ')`. -/
def joinComma : List String → String
  | [] => ""
  | [x] => x
  | x :: y :: xs => x ++ ", " ++ joinComma (y :: xs)

/-! ## Orchestrator feedback-round driver (src/lib/orchestrator/index.ts) -/

/-- Result of `Orchestrator.runFeedbackRound`: the session state it leaves
behind, the error it throws (if any), and whether the revision call was
made. -/
structure OrchResult where
  state : SessionState
  thrown : Option String
  revisionCalled : Bool
deriving Repr

/-- `onConsultantComplete`: record the consultant's outcome in its round
slot — status `complete`/`error`, the saved response path on success, the
call duration and the error message (the round slot always exists at the
call sites; a missing slot is a no-op here where the JS would throw). -/
def applyConsultantUpdate (st : SessionState) (roundNumber : Nat)
    (fb : ConsultantFeedback) : SessionState :=
  let ccs : ConsultantCallState :=
    { status := if fb.status = .success then .complete else .error
      path := if fb.status = .success
        then some (getConsultantResponsePath roundNumber fb.modelId) else none
      error := fb.error
      duration := some fb.duration }
  match alistLookup st.rounds roundNumber with
  | none => st
  | some rs =>
    { st with rounds := (alistSet st.rounds roundNumber
        ({ rs with consultants := alistSet rs.consultants fb.modelId ccs })) }

/-- The round slot `Orchestrator.runFeedbackRound` works on: the existing
entry for the round, or the freshly initialized one. -/
def roundSlot (st : SessionState) (consultantModels : List String) : RoundState :=
  (alistLookup st.rounds (st.currentRound + 1)).getD (initializeRoundState consultantModels)

/-- The still-pending-reviewer filter of `Orchestrator.runFeedbackRound`:
models whose recorded status in the round slot is `pending`
(`consultants[model]?.status === 'pending'`). -/
def orchPendingModels (rs : RoundState) (consultantModels : List String) : List String :=
  consultantModels.filter fun model =>
    decide ((alistLookup rs.consultants model).map (·.status) =
      some ConsultantCallStatus.pending)

/-- Modelled from the spec: the resume contract's pending-reviewer set,
"reviewers not marked `complete`" (the spec's words; the code's filter is
`orchPendingModels`). -/
def notCompleteModels (rs : RoundState) (consultantModels : List String) : List String :=
  consultantModels.filter fun model =>
    !decide ((alistLookup rs.consultants model).map (·.status) =
      some ConsultantCallStatus.complete)

/-- `Orchestrator.runFeedbackRound` (state effects only): initialize the
round slot if absent, set the current round, enter `reviewing`, run the
still-pending consultants, record each outcome; then either fail the whole
round (any error: enter `error`, persist the message naming the failed
models, throw, make no revision call) or save the feedback bundle and run
the revision — enter `revising`, bump the version, save the revised spec
path, and complete the session when this was the last round.  Event
emission and artifact contents are not modelled; `outcome` gives each
consultant call's post-retry result, and the revision call is modelled as
succeeding (its content is irrelevant to the state fields tracked here). -/
def Orchestrator.runFeedbackRound (st : SessionState) (consultantModels : List String)
    (numberOfRounds : Nat) (outcome : String → TaskResult (String × Nat)) : OrchResult :=
  let roundNumber := st.currentRound + 1
  let rounds₀ := match alistLookup st.rounds roundNumber with
    | some _ => st.rounds
    | none => alistSet st.rounds roundNumber (initializeRoundState consultantModels)
  let st₁ := { st with rounds := rounds₀, currentRound := roundNumber }
  if canTransition st.status .reviewing then
    let st₂ := { st₁ with status := SessionStatus.reviewing }
    let rs := (alistLookup st₂.rounds roundNumber).getD (initializeRoundState consultantModels)
    let pendingModels := orchPendingModels rs consultantModels
    let result := runFeedbackRoundFB pendingModels outcome roundNumber
    let st₃ := result.feedbacks.foldl (fun acc fb => applyConsultantUpdate acc roundNumber fb) st₂
    if result.hasErrors then
      let failedConsultants := result.feedbacks.filter fun f => decide (f.status = .error)
      let errorMessage := "Feedback round failed: " ++
        joinComma (failedConsultants.map (·.modelId)) ++ " failed"
      ⟨({ st₃ with status := SessionStatus.error, error := some ⟨errorMessage, "reviewing", none⟩ }),
        some errorMessage, false⟩
    else
      let st₄ := match alistLookup st₃.rounds roundNumber with
        | none => st₃
        | some rs₃ => { st₃ with rounds := (alistSet st₃.rounds roundNumber
            ({ rs₃ with feedbackBundlePath := some (getFeedbackRoundPath roundNumber) })) }
      let st₅ := { st₄ with status := SessionStatus.revising }
      let newVersion := st₅.latestSpecVersion + 1
      let st₆ := { st₅ with latestSpecVersion := newVersion }
      let st₇ := match alistLookup st₆.rounds roundNumber with
        | none => st₆
        | some rs₆ => { st₆ with rounds := (alistSet st₆.rounds roundNumber
            ({ rs₆ with revisedSpecPath := some (getSpecVersionPath newVersion) })) }
      let st₈ := if numberOfRounds ≤ roundNumber
        then { st₇ with status := SessionStatus.completed } else st₇
      ⟨st₈, none, true⟩
  else
    ⟨st₁, some ("Invalid transition from " ++ statusName st.status ++ " to reviewing"), false⟩

/-- Round slot for the C4 counterexample: the single reviewer is recorded
as `error`. -/
def c4ErrorRound : RoundState :=
  ⟨[("A", ⟨.error, none, some "boom", some 0⟩)], none, none⟩

/-- Round slot for the C4 resume example: `A` complete, `B`/`C` pending. -/
def c4MixedRound : RoundState :=
  ⟨[("A", ⟨.complete, some "feedback/round-1-A.md", none, some 5⟩),
    ("B", ⟨.pending, none, none, none⟩),
    ("C", ⟨.pending, none, none, none⟩)], none, none⟩

/-- Consultant-call outcome oracle that always fails, for witnesses. -/
def failOutcome : String → TaskResult (String × Nat) := fun _ => .failure "boom"

/-- All-success task oracle over `ConsultantFeedback`, for C8 witnesses. -/
def oracleC8 : Nat → TaskResult ConsultantFeedback :=
  fun _ => .success ⟨"m", "looks good", 1200, .success, none⟩

/-- The terminal scheduler state of the one-task C8 witness run. -/
def c8Terminal : RunState ConsultantFeedback :=
  ⟨1, [], fun j => if j = 0 then some (oracleC8 0) else none⟩

/-! ## Clarification reply parsing (clarification module)

`JSON.parse` is a platform builtin, not repository code: it is modelled by a
parameter `jp` turning the (fence-stripped) text into a JSON value or a
syntax error.  The fence stripping and the field validation are repository
code and embedded below; a JS error is modelled by its message string. -/

/-- A parsed JSON value. -/
inductive Json where
  | null
  | bool (b : Bool)
  | num (q : ℚ)
  | str (s : String)
  | arr (xs : List Json)
  | obj (fields : List (String × Json))

/-- Property read on a parsed value (`undefined`, i.e. `none`, on
non-objects and on missing keys). -/
def Json.getField : Json → String → Option Json
  | .obj fields, k => alistLookup fields k
  | _, _ => none

/-- `String.prototype.trim`, implemented on the character list (the core
`String.trim` is byte-position based and does not reduce in the kernel). -/
def jsTrim (s : String) : String :=
  String.mk (((s.data.dropWhile Char.isWhitespace).reverse.dropWhile Char.isWhitespace).reverse)

/-- `s.slice(n)` on the character list. -/
def strDrop (s : String) (n : Nat) : String := String.mk (s.data.drop n)

/-- `s.slice(0, n)` on the character list. -/
def strTake (s : String) (n : Nat) : String := String.mk (s.data.take n)

/-- Drop the last `n` characters. -/
def strDropRight (s : String) (n : Nat) : String :=
  String.mk (s.data.take (s.data.length - n))

/-- `String.prototype.endsWith`. -/
def strEndsWith (s suffix : String) : Bool := List.isSuffixOf suffix.data s.data

/-- First regex of `stripMarkdownCodeBlocks` (a leading fence, optionally
tagged `json` case-insensitively, replaced by the empty string): after the
backticks the greedy whitespace class absorbs everything up to and
including the optional newline. -/
def stripLeadingFence (s : String) : String :=
  if List.isPrefixOf ("```").data s.data then
    let rest := strDrop s 3
    let rest := if toLowerStr (strTake rest 4) = "json" then strDrop rest 4 else rest
    String.mk (rest.data.dropWhile Char.isWhitespace)
  else s

/-- Second regex (a trailing fence anchored at the end): on the trimmed
input this is a final triple backtick, with an optional newline before
it. -/
def stripTrailingFence (s : String) : String :=
  if strEndsWith s ("```") then
    let t := strDropRight s 3
    if strEndsWith t ("\n") then strDropRight t 1 else t
  else s

/-- `stripMarkdownCodeBlocks`. -/
def stripMarkdownCodeBlocks (content : String) : String :=
  let cleaned := jsTrim content
  let cleaned := stripLeadingFence cleaned
  let cleaned := stripTrailingFence cleaned
  jsTrim cleaned

/-- `ClarificationResponse`. -/
structure ClarificationResponse where
  ready : Bool
  message : String
  notes : Option String
deriving Repr

/-- The field validation of `parseClarificationResponse`: `parsed.ready`
must be a boolean and `parsed.message` a string that is non-empty after
trimming; `notes` is optional (a whitespace-only notes string becomes
`undefined`). -/
def validateClarification (parsed : Json) : Except String ClarificationResponse :=
  match parsed.getField ("ready") with
  | some (.bool b) =>
    match parsed.getField ("message") with
    | some (.str m) =>
      if jsTrim m = "" then
        .error "Missing or invalid \"message\" field (must be non-empty string)"
      else
        .ok ⟨b, jsTrim m,
          match parsed.getField ("notes") with
          | some (.str n) => if jsTrim n = "" then none else some (jsTrim n)
          | _ => none⟩
    | _ => .error "Missing or invalid \"message\" field (must be non-empty string)"
  | _ => .error "Missing or invalid \"ready\" field (must be boolean)"

/-- `parseClarificationResponse`: strip a surrounding fence, JSON-parse the
stripped text, validate the fields; a `SyntaxError` from the JSON parser is
rewrapped, validation errors are rethrown as they are. -/
def parseClarificationResponse (jp : String → Except String Json)
    (content : String) : Except String ClarificationResponse :=
  match jp (stripMarkdownCodeBlocks content) with
  | .error e => .error ("Invalid JSON response from LLM: " ++ e)
  | .ok parsed => validateClarification parsed

/-- Does the payload carry a boolean `ready` field? -/
def hasBoolReady (j : Json) : Bool :=
  match j.getField ("ready") with
  | some (.bool _) => true
  | _ => false

/-- Does the payload carry a `message` string field that is non-empty after
trimming? -/
def hasNonemptyMessage (j : Json) : Bool :=
  match j.getField ("message") with
  | some (.str s) => !decide (jsTrim s = "")
  | _ => false

/-- JSON parser stub for the C9 witness: always yields an object whose
`ready` field is a number, not a boolean. -/
def jpReadyNum : String → Except String Json :=
  fun _ => .ok (Json.obj [("ready", Json.num 1)])

/-- C1 counterexample: from `completed` there is no legal transition to
`error` — the `from` array of the error entry omits `completed`, so
`canTransition('error')` is `false` there and `transition('error')` throws. -/
theorem canTransition_completed_error_false :
    canTransition .completed .error = false ∧
      (StateMachine.mk .completed []).transition .error =
        .error "Invalid transition from completed to error" := by
  constructor
  · decide
  · rfl

/-- C1 (amended): `canTransition(state, 'error')` holds exactly in the seven
non-terminal states — every state other than `completed` and `error` itself —
and from those states `transition('error')` succeeds, moving to `error`. -/
theorem canTransition_to_error_characterization (s : SessionStatus) :
    (canTransition s .error = true ↔ s ≠ .completed ∧ s ≠ .error) ∧
      (∀ ls : List Nat, s ≠ .completed → s ≠ .error →
        (StateMachine.mk s ls).transition .error =
          .ok (⟨.error, ls⟩, ls.map fun l => ⟨l, s, .error⟩)) := by
  constructor
  · cases s <;> simp <;> decide
  · intro ls h1 h2
    have hc : canTransition s .error = true := by
      cases s <;> first | exact absurd rfl h1 | exact absurd rfl h2 | decide
    simp [StateMachine.transition, hc]

/-- Witness for the amended C1: a concrete legal error transition. -/
theorem canTransition_to_error_witness :
    (StateMachine.mk .idle [0]).transition .error =
      .ok (⟨.error, [0]⟩, [⟨0, .idle, .error⟩]) :=
  (canTransition_to_error_characterization .idle).2 [0] (by decide) (by decide)

/-- C2: for every `(from, to)` in the legal edge set, `transition(to)` from
`from` succeeds, sets the state to `to`, and invokes each registered
observer exactly once with `(from, to)` (the call list is exactly one call
per registered listener, in order); for every pair outside the edge set it
fails with the invalid-transition error and, since the check precedes any
mutation, the state is unchanged and no observer is invoked. -/
theorem transition_edge_contract (f t : SessionStatus) (ls : List Nat) :
    (canTransition f t = true →
      (StateMachine.mk f ls).transition t =
        .ok (⟨t, ls⟩, ls.map fun l => ⟨l, f, t⟩)) ∧
    (canTransition f t = false →
      (StateMachine.mk f ls).transition t =
        .error ("Invalid transition from " ++ statusName f ++ " to " ++ statusName t)) := by
  constructor
  · intro h
    simp [StateMachine.transition, h]
  · intro h
    simp [StateMachine.transition, h]

/-- Witness for C2: the edge `idle → preflight` taken with one listener. -/
theorem transition_edge_contract_witness :
    (StateMachine.mk .idle [5]).transition .preflight =
      .ok (⟨.preflight, [5]⟩, [⟨5, .idle, .preflight⟩]) :=
  (transition_edge_contract .idle .preflight [5]).1 (by decide)

/-- A rate-limit error is in particular transient (the first disjunct of
`isTransientError`). -/
theorem isTransient_of_isRateLimit (m : String) (h : isRateLimitError m = true) :
    isTransientError m = true := by
  simp [isTransientError, h]

/-- With the default options every computed delay lies in `[0, 61000)`
whenever the jitter lies in `[0, 1000)`. -/
theorem calculateDelay_bounds (attempt : Nat) (rl : Bool) (j : ℚ)
    (hj0 : 0 ≤ j) (hj1 : j < 1000) :
    0 ≤ calculateDelay attempt rl DEFAULT_OPTIONS j ∧
      calculateDelay attempt rl DEFAULT_OPTIONS j < 61000 := by
  have hbase : (0 : ℚ) ≤ (if rl then (10000 : ℚ) else DEFAULT_OPTIONS.baseDelay) := by
    cases rl <;> norm_num [DEFAULT_OPTIONS]
  have hpow : (0 : ℚ) ≤ (2 : ℚ) ^ (attempt - 1) := by positivity
  have h1 : (0 : ℚ) ≤ (if rl then (10000 : ℚ) else DEFAULT_OPTIONS.baseDelay) * 2 ^ (attempt - 1) :=
    mul_nonneg hbase hpow
  have h2 : min ((if rl then (10000 : ℚ) else DEFAULT_OPTIONS.baseDelay) * 2 ^ (attempt - 1))
      DEFAULT_OPTIONS.maxDelay ≤ 60000 := by
    have := min_le_right
      ((if rl then (10000 : ℚ) else DEFAULT_OPTIONS.baseDelay) * 2 ^ (attempt - 1))
      DEFAULT_OPTIONS.maxDelay
    simpa [DEFAULT_OPTIONS] using this
  have h3 : (0 : ℚ) ≤ min ((if rl then (10000 : ℚ) else DEFAULT_OPTIONS.baseDelay) * 2 ^ (attempt - 1))
      DEFAULT_OPTIONS.maxDelay :=
    le_min h1 (by norm_num [DEFAULT_OPTIONS])
  unfold calculateDelay
  exact ⟨by simpa using add_nonneg h3 hj0, by simp only []; linarith⟩

/-- One failing-attempt unfolding of the retry loop within the default time
budget: with a transient error at attempt `attempt < 5` and at most 183 s
slept so far, the loop sleeps the computed delay and moves to the next
attempt. -/
theorem withRetryGo_error_step {α : Type} (results : Nat → Except String α) (jitter : Nat → ℚ)
    (attempt : Nat) (elapsed : ℚ) (msg : String)
    (hres : results attempt = .error msg) (htr : isTransientError msg = true)
    (hatt : attempt < 5) (h0 : 0 ≤ elapsed) (hB : elapsed ≤ 183000)
    (hj0 : 0 ≤ jitter attempt) (hj1 : jitter attempt < 1000) :
    withRetryGo results jitter none DEFAULT_OPTIONS attempt elapsed =
      withRetryGo results jitter none DEFAULT_OPTIONS (attempt + 1)
        (elapsed + calculateDelay attempt (isRateLimitError msg) DEFAULT_OPTIONS (jitter attempt)) := by
  have hd := calculateDelay_bounds attempt (isRateLimitError msg) (jitter attempt) hj0 hj1
  rw [withRetryGo]
  rw [hres]
  simp only [htr, Bool.not_true, Bool.false_eq_true, if_false]
  rw [dif_neg (by simp [DEFAULT_OPTIONS]; omega)]
  rw [if_neg (by simp [DEFAULT_OPTIONS]; linarith)]
  rw [if_neg (by intro hcon; simp only [DEFAULT_OPTIONS] at hd hcon; linarith [hd.1, hd.2])]

/-- C5: with `maxRetries = 5` (the default), an operation failing with a
rate-limit fault on attempts 1–4 and succeeding on attempt 5 makes
`withRetry` return the success value; an operation failing with a transient
fault on every attempt makes `withRetry` raise an error whose message
references the last underlying fault's message. -/
theorem withRetry_rate_limit_policy {α : Type} (results : Nat → Except String α)
    (jitter : Nat → ℚ) (e : Nat → String)
    (hj : ∀ n, 0 ≤ jitter n ∧ jitter n < 1000) :
    (∀ v : α,
      (∀ n, 1 ≤ n → n ≤ 4 → results n = .error (e n) ∧ isRateLimitError (e n) = true) →
      results 5 = .ok v →
      (withRetry results jitter none DEFAULT_OPTIONS).result = .ok v) ∧
    ((∀ n, results n = .error (e n) ∧ isTransientError (e n) = true) →
      (withRetry results jitter none DEFAULT_OPTIONS).result =
        .error ("Max retries (5) exceeded. Last error: " ++ e 5)) := by
  constructor
  · intro v hfail hok
    have h1 := hfail 1 (by norm_num) (by norm_num)
    have h2 := hfail 2 (by norm_num) (by norm_num)
    have h3 := hfail 3 (by norm_num) (by norm_num)
    have h4 := hfail 4 (by norm_num) (by norm_num)
    have hb1 := calculateDelay_bounds 1 (isRateLimitError (e 1)) (jitter 1) (hj 1).1 (hj 1).2
    have hb2 := calculateDelay_bounds 2 (isRateLimitError (e 2)) (jitter 2) (hj 2).1 (hj 2).2
    have hb3 := calculateDelay_bounds 3 (isRateLimitError (e 3)) (jitter 3) (hj 3).1 (hj 3).2
    unfold withRetry
    rw [withRetryGo_error_step results jitter 1 0 (e 1) h1.1
      (isTransient_of_isRateLimit _ h1.2) (by norm_num) le_rfl (by norm_num) (hj 1).1 (hj 1).2]
    rw [withRetryGo_error_step results jitter 2 _ (e 2) h2.1
      (isTransient_of_isRateLimit _ h2.2) (by norm_num) (by linarith [hb1.1])
      (by linarith [hb1.2]) (hj 2).1 (hj 2).2]
    rw [withRetryGo_error_step results jitter 3 _ (e 3) h3.1
      (isTransient_of_isRateLimit _ h3.2) (by norm_num) (by linarith [hb1.1, hb2.1])
      (by linarith [hb1.2, hb2.2]) (hj 3).1 (hj 3).2]
    rw [withRetryGo_error_step results jitter 4 _ (e 4) h4.1
      (isTransient_of_isRateLimit _ h4.2) (by norm_num) (by linarith [hb1.1, hb2.1, hb3.1])
      (by linarith [hb1.2, hb2.2, hb3.2]) (hj 4).1 (hj 4).2]
    rw [withRetryGo]
    rw [hok]
  · intro hfail
    have h1 := hfail 1
    have h2 := hfail 2
    have h3 := hfail 3
    have h4 := hfail 4
    have h5 := hfail 5
    have hb1 := calculateDelay_bounds 1 (isRateLimitError (e 1)) (jitter 1) (hj 1).1 (hj 1).2
    have hb2 := calculateDelay_bounds 2 (isRateLimitError (e 2)) (jitter 2) (hj 2).1 (hj 2).2
    have hb3 := calculateDelay_bounds 3 (isRateLimitError (e 3)) (jitter 3) (hj 3).1 (hj 3).2
    unfold withRetry
    rw [withRetryGo_error_step results jitter 1 0 (e 1) h1.1 h1.2
      (by norm_num) le_rfl (by norm_num) (hj 1).1 (hj 1).2]
    rw [withRetryGo_error_step results jitter 2 _ (e 2) h2.1 h2.2
      (by norm_num) (by linarith [hb1.1]) (by linarith [hb1.2]) (hj 2).1 (hj 2).2]
    rw [withRetryGo_error_step results jitter 3 _ (e 3) h3.1 h3.2
      (by norm_num) (by linarith [hb1.1, hb2.1]) (by linarith [hb1.2, hb2.2]) (hj 3).1 (hj 3).2]
    rw [withRetryGo_error_step results jitter 4 _ (e 4) h4.1 h4.2
      (by norm_num) (by linarith [hb1.1, hb2.1, hb3.1])
      (by linarith [hb1.2, hb2.2, hb3.2]) (hj 4).1 (hj 4).2]
    rw [withRetryGo]
    rw [h5.1]
    simp only [h5.2, Bool.not_true, Bool.false_eq_true, if_false]
    rw [dif_pos (by norm_num [DEFAULT_OPTIONS])]
    congr 1

/-- Witness for C5: the concrete rate-limited operation succeeds on the
fifth attempt and `withRetry` returns its value. -/
theorem withRetry_rate_limit_policy_witness :
    (withRetry c5Results zeroJitter none DEFAULT_OPTIONS).result = .ok 7 :=
  (withRetry_rate_limit_policy c5Results zeroJitter (fun _ => "429 rate limit")
    (fun _ => ⟨le_rfl, by norm_num [zeroJitter]⟩)).1 7
    (fun n _ h2 => ⟨by simp [c5Results, h2], by decide⟩)
    (by rfl)

/-- C6: for every attempt `n ≥ 1` the computed retry delay equals
`min(baseDelay · 2^(n-1), 60000)` plus the jitter, where the base delay is
10000 ms for a rate-limit error and the default 1000 ms otherwise, and the
delay exceeds the capped exponential term by at least 0 and less than
1000 ms. -/
theorem calculateDelay_formula (n : Nat) (hn : 1 ≤ n) (rl : Bool) (j : ℚ)
    (hj0 : 0 ≤ j) (hj1 : j < 1000) :
    calculateDelay n rl DEFAULT_OPTIONS j
      = min ((if rl then (10000 : ℚ) else 1000) * 2 ^ (n - 1)) 60000 + j ∧
    min ((if rl then (10000 : ℚ) else 1000) * 2 ^ (n - 1)) 60000
      ≤ calculateDelay n rl DEFAULT_OPTIONS j ∧
    calculateDelay n rl DEFAULT_OPTIONS j
      < min ((if rl then (10000 : ℚ) else 1000) * 2 ^ (n - 1)) 60000 + 1000 := by
  have he : calculateDelay n rl DEFAULT_OPTIONS j
      = min ((if rl then (10000 : ℚ) else 1000) * 2 ^ (n - 1)) 60000 + j := by
    simp [calculateDelay, DEFAULT_OPTIONS]
  exact ⟨he, by rw [he]; linarith, by rw [he]; linarith⟩

/-- Witness for C6: the first rate-limited delay with jitter 1/2. -/
theorem calculateDelay_formula_witness :
    calculateDelay 1 true DEFAULT_OPTIONS (1 / 2)
      = min ((if true then (10000 : ℚ) else 1000) * 2 ^ (1 - 1)) 60000 + 1 / 2 :=
  (calculateDelay_formula 1 (by norm_num) true (1 / 2) (by norm_num) (by norm_num)).1

/-- The loop starting at attempt `a ≤ maxRetries` makes at most
`maxRetries` calls in total. -/
theorem withRetryGo_calls_le {α : Type} (results : Nat → Except String α) (jitter : Nat → ℚ)
    (sr : Option (String → Bool)) (opts : RetryOptions) :
    ∀ (k a : Nat) (elapsed : ℚ), opts.maxRetries - a = k → a ≤ opts.maxRetries → 1 ≤ a →
      (withRetryGo results jitter sr opts a elapsed).calls ≤ opts.maxRetries := by
  intro k
  induction k with
  | zero =>
    intro a elapsed hk ha _
    have haM : a = opts.maxRetries := by omega
    rw [withRetryGo]
    cases hr : results a with
    | ok v => simpa using ha
    | error msg =>
      simp only []
      split
      · simpa using ha
      · rw [dif_pos (by omega)]
        simpa using ha
  | succ k IH =>
    intro a elapsed hk ha h1
    rw [withRetryGo]
    cases hr : results a with
    | ok v => simpa using ha
    | error msg =>
      simp only []
      split
      · simpa using ha
      · split
        · simpa using ha
        · split
          · simpa using ha
          · split
            · simpa using ha
            · exact IH (a + 1) _ (by omega) (by omega) (by omega)

/-- C10: `withRetry` with `maxRetries = m ≥ 1` invokes the wrapped operation
at most `m` times in total (attempts include the first call), a
non-failing operation is invoked exactly once, and the preflight options
(`maxRetries = 3`) give at most 3 calls. -/
theorem withRetry_attempt_bound {α : Type} (results : Nat → Except String α) (jitter : Nat → ℚ)
    (sr : Option (String → Bool)) (opts : RetryOptions) (h : 1 ≤ opts.maxRetries) :
    (withRetry results jitter sr opts).calls ≤ opts.maxRetries ∧
    (∀ v : α, results 1 = .ok v → withRetry results jitter sr opts = ⟨.ok v, 1⟩) ∧
    (withRetry results jitter sr PREFLIGHT_RETRY_OPTIONS).calls ≤ 3 := by
  refine ⟨?_, ?_, ?_⟩
  · exact withRetryGo_calls_le results jitter sr opts (opts.maxRetries - 1) 1 0 rfl h le_rfl
  · intro v hv
    unfold withRetry
    rw [withRetryGo]
    rw [hv]
  · exact withRetryGo_calls_le results jitter sr PREFLIGHT_RETRY_OPTIONS 2 1 0 rfl
      (by norm_num [PREFLIGHT_RETRY_OPTIONS]) le_rfl

/-- Witness for C10: an always-succeeding operation under the default
options. -/
theorem withRetry_attempt_bound_witness :
    (withRetry okResults zeroJitter none DEFAULT_OPTIONS).calls ≤ DEFAULT_OPTIONS.maxRetries ∧
      withRetry okResults zeroJitter none DEFAULT_OPTIONS = ⟨.ok 3, 1⟩ :=
  ⟨(withRetry_attempt_bound okResults zeroJitter none DEFAULT_OPTIONS
      (by norm_num [DEFAULT_OPTIONS])).1,
    (withRetry_attempt_bound okResults zeroJitter none DEFAULT_OPTIONS
      (by norm_num [DEFAULT_OPTIONS])).2.1 3 rfl⟩

/-- The start-up state satisfies the scheduler invariant (the limiter is
only meaningful for `K ≥ 1`; the orchestrator uses `K = 5`). -/
theorem runInv_init {ρ : Type} (oracle : Nat → TaskResult ρ) (N K : Nat) (hK : 1 ≤ K) :
    RunInv oracle N K (initState N K) := by
  refine ⟨min_le_right _ _, ?_, List.nodup_range _, ?_, ?_, ?_, ?_, ?_⟩
  · intro i hi
    exact List.mem_range.mp hi
  · intro i _
    rfl
  · intro j hj hj2
    exact absurd (List.mem_range.mpr hj) hj2
  · intro j _
    rfl
  · simp [initState]
  · intro h
    have h0 := List.range_eq_nil.mp h
    simp only [initState]
    omega

/-- Every completion event preserves the scheduler invariant. -/
theorem runInv_step {ρ : Type} {oracle : Nat → TaskResult ρ} {N K : Nat}
    {s s' : RunState ρ} (inv : RunInv oracle N K s) (st : Step oracle N s s') :
    RunInv oracle N K s' := by
  cases st with
  | finish i hi =>
    have hiN : i < s.nextIndex := inv.active_lt i hi
    by_cases hN : s.nextIndex < N
    · simp only [if_pos hN]
      refine RunInv.mk ?_ ?_ ?_ ?_ ?_ ?_ ?_ ?_ <;> dsimp only
      · omega
      · intro x hx
        rcases List.mem_append.mp hx with h | h
        · exact Nat.lt_succ_of_lt (inv.active_lt x (List.mem_of_mem_erase h))
        · simp only [List.mem_singleton] at h
          omega
      · refine List.Nodup.append (inv.nodup.erase i) (List.nodup_singleton _) ?_
        intro x hx hx'
        simp only [List.mem_singleton] at hx'
        subst hx'
        exact absurd (inv.active_lt _ (List.mem_of_mem_erase hx)) (lt_irrefl _)
      · intro x hx
        rcases List.mem_append.mp hx with h | h
        · have hx2 := (inv.nodup.mem_erase_iff).mp h
          rw [if_neg hx2.1]
          exact inv.active_none x hx2.2
        · simp only [List.mem_singleton] at h
          subst h
          rw [if_neg (by omega)]
          exact inv.todo_none _ le_rfl
      · intro j hj hj2
        by_cases hji : j = i
        · subst hji
          simp
        · rw [if_neg hji]
          have hj3 : j ∉ s.active.erase i := fun hin => hj2 (List.mem_append.mpr (.inl hin))
          have hj4 : j ≠ s.nextIndex := by
            intro hEq
            exact hj2 (List.mem_append.mpr (.inr (by simp [hEq])))
          have hj5 : j ∉ s.active := by
            intro hin
            exact hj3 ((inv.nodup.mem_erase_iff).mpr ⟨hji, hin⟩)
          exact inv.done_some j (by omega) hj5
      · intro j hj
        rw [if_neg (by omega)]
        exact inv.todo_none j (by omega)
      · have hlen := List.length_erase_of_mem hi
        have hpos : 0 < s.active.length := List.length_pos.mpr (List.ne_nil_of_mem hi)
        have hcard := inv.card_le
        simp only [List.length_append, List.length_singleton, hlen]
        omega
      · intro h
        exact absurd h (by simp)
    · simp only [if_neg hN]
      refine RunInv.mk ?_ ?_ ?_ ?_ ?_ ?_ ?_ ?_ <;> dsimp only <;> (try simp only [List.append_nil])
      · exact inv.next_le
      · intro x hx
        exact inv.active_lt x (List.mem_of_mem_erase hx)
      · exact inv.nodup.erase i
      · intro x hx
        have hx2 := (inv.nodup.mem_erase_iff).mp hx
        rw [if_neg hx2.1]
        exact inv.active_none x hx2.2
      · intro j hj hj2
        by_cases hji : j = i
        · subst hji
          simp
        · rw [if_neg hji]
          have hj5 : j ∉ s.active := by
            intro hin
            exact hj2 ((inv.nodup.mem_erase_iff).mpr ⟨hji, hin⟩)
          exact inv.done_some j hj hj5
      · intro j hj
        rw [if_neg (by omega)]
        exact inv.todo_none j hj
      · exact le_trans (List.Sublist.length_le (List.erase_sublist i s.active)) inv.card_le
      · intro _
        omega

/-- Every completion event strictly decreases the pending-work measure. -/
theorem runMeasure_step {ρ : Type} {oracle : Nat → TaskResult ρ} {N : Nat}
    {s s' : RunState ρ} (st : Step oracle N s s') : runMeasure N s' < runMeasure N s := by
  cases st with
  | finish i hi =>
    have hlen := List.length_erase_of_mem hi
    have hpos : 0 < s.active.length := List.length_pos.mpr (List.ne_nil_of_mem hi)
    by_cases hN : s.nextIndex < N
    · simp only [if_pos hN]
      dsimp only [runMeasure]
      simp only [List.length_append, List.length_singleton, hlen]
      omega
    · simp only [if_neg hN]
      dsimp only [runMeasure]
      simp only [List.append_nil, hlen]
      omega

/-- Reachable states satisfy the scheduler invariant. -/
theorem runInv_reachable {ρ : Type} {oracle : Nat → TaskResult ρ} {N K : Nat}
    (hK : 1 ≤ K) {s : RunState ρ} (hs : ReachableRun oracle N K s) :
    RunInv oracle N K s := by
  induction hs with
  | refl => exact runInv_init oracle N K hK
  | tail _ h2 ih => exact runInv_step ih h2

/-- C7: in every reachable scheduler state of `runParallelWithErrors` with
`N` tasks and limit `K ≥ 1`, at most `K` tasks are concurrently active; when
all tasks have resolved (no worker active) the stored outcome list has
exactly `N` tagged outcomes in original submission order — slot `i` holds
task `i`'s outcome, for any oracle, so one task's failure neither cancels
nor blocks the others; and while some task is active another completion
event is always possible and strictly decreases the pending-work measure,
so every run reaches the all-resolved state. -/
theorem runParallelWithErrors_contract {ρ : Type} (oracle : Nat → TaskResult ρ)
    (N K : Nat) (hK : 1 ≤ K) (s : RunState ρ) (hs : ReachableRun oracle N K s) :
    s.active.length ≤ K ∧
    (s.active = [] →
      (List.range N).map s.results = (List.range N).map (fun i => some (oracle i))) ∧
    (s.active ≠ [] → ∃ s', Step oracle N s s' ∧ runMeasure N s' < runMeasure N s) := by
  have inv := runInv_reachable hK hs
  refine ⟨le_trans inv.card_le (min_le_left _ _), ?_, ?_⟩
  · intro hemp
    apply List.map_congr_left
    intro i hir
    have hiN : i < N := List.mem_range.mp hir
    have hlt : i < s.nextIndex := lt_of_lt_of_le hiN (inv.empty_done hemp)
    exact inv.done_some i hlt (by simp [hemp])
  · intro hne
    obtain ⟨i, hi⟩ := List.exists_mem_of_ne_nil s.active hne
    exact ⟨_, .finish s i hi, runMeasure_step (.finish s i hi)⟩

/-- Witness for C7: the start-up state of 5 tasks with limit 2 is reachable
and has at most 2 active tasks. -/
theorem runParallelWithErrors_contract_witness :
    (initState 5 2 : RunState Nat).active.length ≤ 2 :=
  (runParallelWithErrors_contract oracleW 5 2 (by norm_num) _ Relation.ReflTransGen.refl).1

/-- Writing key `k` and then reading `k` yields the written value. -/
theorem alistLookup_alistSet_self {κ ν : Type} [DecidableEq κ]
    (xs : List (κ × ν)) (k : κ) (v : ν) :
    alistLookup (alistSet xs k v) k = some v := by
  induction xs with
  | nil => simp [alistSet, alistLookup]
  | cons p t ih =>
    by_cases hk : p.1 = k
    · simp [alistSet, hk, alistLookup]
    · simpa [alistSet, hk, alistLookup, List.find?_cons] using ih

/-- Recording a consultant outcome leaves the round's bundle and
revised-spec references untouched. -/
theorem applyConsultantUpdate_roundPair (st : SessionState) (r : Nat)
    (fb : ConsultantFeedback) :
    (alistLookup (applyConsultantUpdate st r fb).rounds r).map
        (fun rs => (rs.feedbackBundlePath, rs.revisedSpecPath)) =
      (alistLookup st.rounds r).map
        (fun rs => (rs.feedbackBundlePath, rs.revisedSpecPath)) := by
  unfold applyConsultantUpdate
  cases h : alistLookup st.rounds r with
  | none => simp [h]
  | some rs => simp [h, alistLookup_alistSet_self]

/-- Folding consultant updates over a feedback list leaves the round's
bundle and revised-spec references untouched. -/
theorem foldl_applyConsultantUpdate_roundPair (fbs : List ConsultantFeedback)
    (st : SessionState) (r : Nat) :
    (alistLookup (fbs.foldl (fun acc fb => applyConsultantUpdate acc r fb) st).rounds r).map
        (fun rs => (rs.feedbackBundlePath, rs.revisedSpecPath)) =
      (alistLookup st.rounds r).map
        (fun rs => (rs.feedbackBundlePath, rs.revisedSpecPath)) := by
  induction fbs generalizing st with
  | nil => rfl
  | cons fb t ih =>
    rw [List.foldl_cons, ih, applyConsultantUpdate_roundPair]

/-- A failing outcome of any run model makes the round report errors. -/
theorem runFeedbackRoundFB_hasErrors (pending : List String)
    (outcome : String → TaskResult (String × Nat)) (r : Nat)
    (m : String) (hm : m ∈ pending) (e : String) (he : outcome m = .failure e) :
    (runFeedbackRoundFB pending outcome r).hasErrors = true := by
  unfold runFeedbackRoundFB
  simp only [List.any_eq_true, List.mem_map]
  exact ⟨⟨m, "", 0, .error, some e⟩, ⟨m, hm, by rw [he]⟩, rfl⟩

/-- The model ids of the error feedbacks are exactly the models whose
outcome failed, in input order. -/
theorem runFeedbackRoundFB_failed_models (pending : List String)
    (outcome : String → TaskResult (String × Nat)) (r : Nat) :
    (((runFeedbackRoundFB pending outcome r).feedbacks.filter
        fun f => decide (f.status = .error)).map (·.modelId)) =
      failedModelIds pending outcome := by
  unfold runFeedbackRoundFB failedModelIds
  induction pending with
  | nil => rfl
  | cons m t ih =>
    dsimp only [List.map_cons]
    cases ho : outcome m with
    | success pr =>
      obtain ⟨c, d⟩ := pr
      simp only [ho, List.filter_cons]
      simpa using ih
    | failure e =>
      simp only [ho, List.filter_cons]
      simpa using ih

/-- An element of a joined list occurs inside the joined string. -/
theorem isInfix_joinComma (m : String) (l : List String) (hm : m ∈ l) :
    List.IsInfix m.data (joinComma l).data := by
  induction l with
  | nil => cases hm
  | cons x xs ih =>
    cases xs with
    | nil =>
      simp only [List.mem_singleton] at hm
      subst hm
      exact List.infix_refl _
    | cons y ys =>
      rcases List.mem_cons.mp hm with h | h
      · subst h
        refine ⟨[], (", " : String).data ++ (joinComma (y :: ys)).data, ?_⟩
        simp [joinComma, String.data_append, List.append_assoc]
      · obtain ⟨t, u, htu⟩ := ih h
        refine ⟨(x ++ ", ").data ++ t, u, ?_⟩
        simp only [joinComma, String.data_append, List.append_assoc]
        rw [← htu]
        simp [List.append_assoc]

/-- An infix stays an infix under surrounding context. -/
theorem isInfix_append_context {α : Type} (pre suf : List α) {l m : List α}
    (h : List.IsInfix l m) : List.IsInfix l (pre ++ m ++ suf) := by
  obtain ⟨t, u, htu⟩ := h
  refine ⟨pre ++ t, u ++ suf, ?_⟩
  rw [← htu]
  simp [List.append_assoc]

/-- An optional round whose projected bundle/revised pair is `(none, none)`
is a present slot with both references null. -/
theorem exists_of_map_pair_eq {o : Option RoundState}
    (h : o.map (fun rs => (rs.feedbackBundlePath, rs.revisedSpecPath)) =
      some (none, none)) :
    ∃ rs', o = some rs' ∧ rs'.feedbackBundlePath = none ∧ rs'.revisedSpecPath = none := by
  cases o with
  | none => simp at h
  | some rs =>
    simp only [Option.map_some', Option.some.injEq, Prod.mk.injEq] at h
    exact ⟨rs, rfl, h.1, h.2⟩

/-- C3: in any single orchestrator feedback-round invocation where at least
one still-pending reviewer's call ends in error after retries, the session
moves to phase `error`, the persisted error message names exactly the failed
model(s), the round's feedback-bundle and revised-spec references remain
null, and no revision call is made (the method throws instead). -/
theorem feedbackRound_failure_contract (st : SessionState) (models : List String)
    (numberOfRounds : Nat) (outcome : String → TaskResult (String × Nat))
    (hcan : canTransition st.status .reviewing = true)
    (hnull : (roundSlot st models).feedbackBundlePath = none ∧
      (roundSlot st models).revisedSpecPath = none)
    (hfail : ∃ m ∈ orchPendingModels (roundSlot st models) models,
      ∃ e, outcome m = .failure e) :
    (Orchestrator.runFeedbackRound st models numberOfRounds outcome).state.status = .error ∧
    (Orchestrator.runFeedbackRound st models numberOfRounds outcome).revisionCalled = false ∧
    (Orchestrator.runFeedbackRound st models numberOfRounds outcome).state.error =
      some ⟨"Feedback round failed: " ++
        joinComma (failedModelIds (orchPendingModels (roundSlot st models) models) outcome) ++
        " failed", "reviewing", none⟩ ∧
    (∀ m ∈ failedModelIds (orchPendingModels (roundSlot st models) models) outcome,
      List.IsInfix m.data
        ("Feedback round failed: " ++
          joinComma (failedModelIds (orchPendingModels (roundSlot st models) models) outcome) ++
          " failed").data) ∧
    (∃ rs', alistLookup
        (Orchestrator.runFeedbackRound st models numberOfRounds outcome).state.rounds
        (st.currentRound + 1) = some rs' ∧
      rs'.feedbackBundlePath = none ∧ rs'.revisedSpecPath = none) := by
  obtain ⟨m, hm, e, he⟩ := hfail
  have hHasErr := runFeedbackRoundFB_hasErrors
    (orchPendingModels (roundSlot st models) models) outcome (st.currentRound + 1) m hm e he
  have hinfix : ∀ m' ∈ failedModelIds (orchPendingModels (roundSlot st models) models) outcome,
      List.IsInfix m'.data
        ("Feedback round failed: " ++
          joinComma (failedModelIds (orchPendingModels (roundSlot st models) models) outcome) ++
          " failed").data := by
    intro m' hm'
    have h1 := isInfix_joinComma m' _ hm'
    have h2 := isInfix_append_context ("Feedback round failed: " : String).data
      (" failed" : String).data h1
    simpa [String.data_append] using h2
  cases hl : alistLookup st.rounds (st.currentRound + 1) with
  | none =>
    have hslot : roundSlot st models = initializeRoundState models := by
      simp [roundSlot, hl]
    rw [hslot] at hHasErr hinfix hnull ⊢
    have hpair := foldl_applyConsultantUpdate_roundPair
      (runFeedbackRoundFB (orchPendingModels (initializeRoundState models) models) outcome
        (st.currentRound + 1)).feedbacks
      ({ st with rounds := alistSet st.rounds (st.currentRound + 1) (initializeRoundState models), currentRound := st.currentRound + 1, status := SessionStatus.reviewing })
      (st.currentRound + 1)
    simp only [Orchestrator.runFeedbackRound, hl, hcan, if_true,
      alistLookup_alistSet_self, Option.getD_some, hHasErr,
      runFeedbackRoundFB_failed_models] at hpair ⊢
    refine ⟨trivial, trivial, trivial, hinfix, ?_⟩
    exact exists_of_map_pair_eq (by rw [hpair]; simp [initializeRoundState])
  | some rs0 =>
    have hslot : roundSlot st models = rs0 := by
      simp [roundSlot, hl]
    rw [hslot] at hHasErr hinfix hnull ⊢
    have hpair := foldl_applyConsultantUpdate_roundPair
      (runFeedbackRoundFB (orchPendingModels rs0 models) outcome
        (st.currentRound + 1)).feedbacks
      ({ st with currentRound := st.currentRound + 1, status := SessionStatus.reviewing })
      (st.currentRound + 1)
    simp only [Orchestrator.runFeedbackRound, hl, hcan, if_true,
      Option.getD_some, hHasErr, runFeedbackRoundFB_failed_models] at hpair ⊢
    refine ⟨trivial, trivial, trivial, hinfix, ?_⟩
    exact exists_of_map_pair_eq (by rw [hpair]; simp [hl, hnull.1, hnull.2])

/-- Witness for C3: a fresh session whose single reviewer call fails. -/
theorem feedbackRound_failure_contract_witness :
    (Orchestrator.runFeedbackRound createInitialState ["A"] 1 failOutcome).state.status =
      .error :=
  (feedbackRound_failure_contract createInitialState ["A"] 1 failOutcome (by decide)
    ⟨rfl, rfl⟩ ⟨"A", by decide, "boom", rfl⟩).1

/-- C4 counterexample: resuming a round whose only reviewer is recorded as
`error` re-runs nothing — the orchestrator's filter (like
`getPendingConsultants`) selects only status `pending`, while the claim's
"not `complete`" set contains that reviewer. -/
theorem pendingModels_skips_error_counterexample :
    orchPendingModels c4ErrorRound ["A"] = [] ∧
      notCompleteModels c4ErrorRound ["A"] = ["A"] ∧
      getPendingConsultants c4ErrorRound = [] := by
  refine ⟨rfl, rfl, rfl⟩

/-- C4 (amended): on resume the orchestrator re-runs exactly the reviewers
whose recorded status is `pending` — reviewers recorded `complete` or
`error` (or absent from the slot) are skipped; in particular resuming
`{A: complete, B: pending, C: pending}` re-runs only `B` and `C`. -/
theorem pendingModels_characterization (rs : RoundState) (models : List String) :
    (∀ m, m ∈ orchPendingModels rs models ↔
      m ∈ models ∧
        (alistLookup rs.consultants m).map (·.status) =
          some ConsultantCallStatus.pending) ∧
    orchPendingModels c4MixedRound ["A", "B", "C"] = ["B", "C"] ∧
    getPendingConsultants c4MixedRound = ["B", "C"] := by
  refine ⟨?_, rfl, rfl⟩
  intro m
  simp [orchPendingModels, List.mem_filter]

/-- The one-task witness run reaches its terminal state in one completion
event. -/
theorem c8Terminal_reachable : ReachableRun oracleC8 1 1 c8Terminal := by
  have h0 : (0 : Nat) ∈ (initState 1 1 : RunState ConsultantFeedback).active := by
    simp [initState]
  exact Relation.ReflTransGen.single (Step.finish (initState 1 1) 0 h0)

/-- C8: the feedback list of a finished round is determined by the input
model order — identical across any two completion schedules and equal to the
per-index outcomes in submission order; and for an all-success round the
aggregate bundle is the header followed by one section per reviewer in that
list order, each section carrying the reviewer's model id and its call
duration. -/
theorem aggregateFeedback_order_contract (models : List String)
    (oracle : Nat → TaskResult ConsultantFeedback) (K : Nat) (hK : 1 ≤ K)
    (s₁ s₂ : RunState ConsultantFeedback)
    (h₁ : ReachableRun oracle models.length K s₁)
    (h₂ : ReachableRun oracle models.length K s₂)
    (ht₁ : s₁.active = []) (ht₂ : s₂.active = []) (round : Nat) :
    feedbacksOfState models s₁ =
      (List.range models.length).map (fun i => feedbackFromResult models i (oracle i)) ∧
    feedbacksOfState models s₁ = feedbacksOfState models s₂ ∧
    (∀ fbs : List ConsultantFeedback, fbs ≠ [] →
      (∀ f ∈ fbs, f.status = .success) →
      aggregateFeedback fbs round =
        aggregateHeader fbs round ++ String.join (fbs.map aggregateSection)) ∧
    (∀ f : ConsultantFeedback,
      List.IsInfix ("## Feedback from " ++ f.modelId).data (aggregateSection f).data ∧
      List.IsInfix ("*Response time: " ++ toFixed1 f.duration ++ "s*").data
        (aggregateSection f).data) := by
  have inv1 := runInv_reachable hK h₁
  have inv2 := runInv_reachable hK h₂
  have key1 : ∀ i < models.length, s₁.results i = some (oracle i) := fun i hi =>
    inv1.done_some i (lt_of_lt_of_le hi (inv1.empty_done ht₁)) (by simp [ht₁])
  have key2 : ∀ i < models.length, s₂.results i = some (oracle i) := fun i hi =>
    inv2.done_some i (lt_of_lt_of_le hi (inv2.empty_done ht₂)) (by simp [ht₂])
  have main1 : feedbacksOfState models s₁ =
      (List.range models.length).map (fun i => feedbackFromResult models i (oracle i)) := by
    unfold feedbacksOfState
    apply List.map_congr_left
    intro i hir
    rw [key1 i (List.mem_range.mp hir)]
    rfl
  have main2 : feedbacksOfState models s₂ =
      (List.range models.length).map (fun i => feedbackFromResult models i (oracle i)) := by
    unfold feedbacksOfState
    apply List.map_congr_left
    intro i hir
    rw [key2 i (List.mem_range.mp hir)]
    rfl
  refine ⟨main1, main1.trans main2.symm, ?_, ?_⟩
  · intro fbs hne hall
    have hsf : fbs.filter (fun f => decide (f.status = FeedbackStatus.success)) = fbs :=
      List.filter_eq_self.mpr (fun f hf => by simp [hall f hf])
    have hff : fbs.filter (fun f => decide (f.status = FeedbackStatus.error)) = [] := by
      rw [List.filter_eq_nil]
      intro f hf
      simp [hall f hf]
    unfold aggregateFeedback
    rw [hsf, hff]
    have hlen : ¬ fbs.length = 0 := by
      simpa [List.length_eq_zero] using hne
    rw [if_neg hlen]
    simp only [List.length_nil, lt_irrefl, if_false]
    unfold aggregateHeader aggregateSection
    simp
  · intro f
    have hsplit : ("s*\n\n" : String).data = ("s*" : String).data ++ ("\n\n" : String).data := rfl
    have hdata : (aggregateSection f).data =
        ("## Feedback from " : String).data ++ f.modelId.data ++
          (("\n" : String).data ++ ("*Response time: " : String).data ++
            (toFixed1 f.duration).data ++ ("s*" : String).data ++ ("\n\n" : String).data ++
            f.content.data ++ ("\n\n---\n\n" : String).data) := by
      simp [aggregateSection, String.data_append, List.append_assoc, hsplit]
    constructor
    · refine ⟨[], ("\n" : String).data ++ ("*Response time: " : String).data ++
        (toFixed1 f.duration).data ++ ("s*" : String).data ++ ("\n\n" : String).data ++
        f.content.data ++ ("\n\n---\n\n" : String).data, ?_⟩
      rw [hdata]
      simp [String.data_append, List.append_assoc]
    · refine ⟨("## Feedback from " : String).data ++ f.modelId.data ++ ("\n" : String).data,
        ("\n\n" : String).data ++ f.content.data ++ ("\n\n---\n\n" : String).data, ?_⟩
      rw [hdata]
      simp [String.data_append, List.append_assoc]

/-- Witness for C8: the one-task all-success run, read at its terminal
state. -/
theorem aggregateFeedback_order_contract_witness :
    feedbacksOfState ["m"] c8Terminal =
      (List.range (["m"] : List String).length).map
        (fun i => feedbackFromResult ["m"] i (oracleC8 i)) :=
  (aggregateFeedback_order_contract ["m"] oracleC8 1 (by norm_num) c8Terminal c8Terminal
    c8Terminal_reachable c8Terminal_reachable rfl rfl 1).1

/-- C9: parsing a writer clarification reply strips a surrounding markdown
code fence before JSON parsing (the JSON parser is invoked on the
fence-stripped content, and a concrete fenced payload is stripped exactly);
and a parsed payload lacking a boolean `ready` field, or lacking a
non-empty `message` string field, makes the parse fail with an error — it
is never treated as `ready = false`. -/
theorem parseClarificationResponse_contract
    (jp : String → Except String Json) (content : String) :
    (parseClarificationResponse jp content =
      match jp (stripMarkdownCodeBlocks content) with
      | .error e => .error ("Invalid JSON response from LLM: " ++ e)
      | .ok parsed => validateClarification parsed) ∧
    stripMarkdownCodeBlocks ("```json\n\x7b \"ready\": true, \"message\": \"hi\" \x7d\n```")
      = "\x7b \"ready\": true, \"message\": \"hi\" \x7d" ∧
    (∀ j, jp (stripMarkdownCodeBlocks content) = .ok j → hasBoolReady j = false →
      ∃ e, parseClarificationResponse jp content = .error e) ∧
    (∀ j, jp (stripMarkdownCodeBlocks content) = .ok j → hasNonemptyMessage j = false →
      ∃ e, parseClarificationResponse jp content = .error e) := by
  refine ⟨rfl, by decide, ?_, ?_⟩
  · intro j hj hb
    have hpv : parseClarificationResponse jp content = validateClarification j := by
      unfold parseClarificationResponse
      rw [hj]
    rw [hpv]
    unfold hasBoolReady at hb
    cases hr : j.getField ("ready") with
    | none => exact ⟨_, by unfold validateClarification; rw [hr]⟩
    | some v =>
      cases v with
      | bool b =>
        rw [hr] at hb
        simp at hb
      | null => exact ⟨_, by unfold validateClarification; rw [hr]⟩
      | num q => exact ⟨_, by unfold validateClarification; rw [hr]⟩
      | str s => exact ⟨_, by unfold validateClarification; rw [hr]⟩
      | arr xs => exact ⟨_, by unfold validateClarification; rw [hr]⟩
      | obj fields => exact ⟨_, by unfold validateClarification; rw [hr]⟩
  · intro j hj hm
    have hpv : parseClarificationResponse jp content = validateClarification j := by
      unfold parseClarificationResponse
      rw [hj]
    rw [hpv]
    unfold hasNonemptyMessage at hm
    cases hr : j.getField ("ready") with
    | none => exact ⟨_, by unfold validateClarification; rw [hr]⟩
    | some v =>
      cases v with
      | bool b =>
        cases hmsg : j.getField ("message") with
        | none => exact ⟨_, by unfold validateClarification; rw [hr, hmsg]⟩
        | some w =>
          cases w with
          | str sm =>
            rw [hmsg] at hm
            simp at hm
            exact ⟨_, by unfold validateClarification; rw [hr, hmsg]; dsimp only; rw [if_pos hm]⟩
          | null => exact ⟨_, by unfold validateClarification; rw [hr, hmsg]⟩
          | bool b2 => exact ⟨_, by unfold validateClarification; rw [hr, hmsg]⟩
          | num q => exact ⟨_, by unfold validateClarification; rw [hr, hmsg]⟩
          | arr xs => exact ⟨_, by unfold validateClarification; rw [hr, hmsg]⟩
          | obj fields => exact ⟨_, by unfold validateClarification; rw [hr, hmsg]⟩
      | null => exact ⟨_, by unfold validateClarification; rw [hr]⟩
      | num q => exact ⟨_, by unfold validateClarification; rw [hr]⟩
      | str s => exact ⟨_, by unfold validateClarification; rw [hr]⟩
      | arr xs => exact ⟨_, by unfold validateClarification; rw [hr]⟩
      | obj fields => exact ⟨_, by unfold validateClarification; rw [hr]⟩

/-- Witness for C9: a payload whose `ready` field is a number makes the
parse fail. -/
theorem parseClarificationResponse_contract_witness :
    ∃ e, parseClarificationResponse jpReadyNum "x" = .error e :=
  (parseClarificationResponse_contract jpReadyNum "x").2.2.1
    (Json.obj [("ready", Json.num 1)]) rfl rfl

end SpecForge
